import Mathlib

/-
Shallow embedding of hiredispool's C++ client header (src/RedisClient.h).

Raw redisReply pointers are modelled as `Option Nat`: `none` is the C NULL
pointer and `some a` is a non-null pointer with address `a`.  Freeing is
observable: functions that may free a reply return the list of addresses
handed to the hiredis finalizer with a non-null argument, and functions
that check a connection in or out thread the pool state explicitly.
-/

/-- Helper struct RedisReplyRef (src/RedisClient.h lines 52-57): a bare
wrapper around one raw reply pointer, used to move ownership through
temporaries returned by value. -/
structure RedisReplyRef where
  p : Option Nat
deriving DecidableEq

/-- RedisReplyPtr (src/RedisClient.h lines 59-108): a smart pointer owning
at most one raw reply; the `reply` field is the stored raw pointer. -/
structure RedisReplyPtr where
  reply : Option Nat
deriving DecidableEq

/-- Collaborator hiredis freeReplyObject: frees its argument when it is
non-null and is a documented no-op on NULL.  The result is the list of
addresses actually freed by the call. -/
def freeReplyObject : Option Nat → List Nat
  | none => []
  | some a => [a]

/-- RedisReplyPtr::release (src/RedisClient.h lines 70-74): hands the raw
pointer out and leaves the handle empty; nothing is freed. -/
def RedisReplyPtr.release (h : RedisReplyPtr) : Option Nat × RedisReplyPtr :=
  (h.reply, ⟨none⟩)

/-- Destructor RedisReplyPtr::~RedisReplyPtr (src/RedisClient.h lines
64-67): calls freeReplyObject on the stored raw pointer. -/
def RedisReplyPtr.destruct (h : RedisReplyPtr) : List Nat :=
  freeReplyObject h.reply

/-- RedisReplyPtr::notNull (src/RedisClient.h line 101): reply != NULL. -/
def RedisReplyPtr.notNull (h : RedisReplyPtr) : Bool :=
  h.reply.isSome

/-- RedisReplyPtr::get (src/RedisClient.h line 102): the raw pointer,
returned without any check. -/
def RedisReplyPtr.get (h : RedisReplyPtr) : Option Nat :=
  h.reply

/-- RedisReplyPtr::operator-> (src/RedisClient.h line 103): returns the
stored raw pointer with no emptiness check; on an empty handle the caller
receives the NULL pointer. -/
def RedisReplyPtr.opArrow (h : RedisReplyPtr) : Option Nat :=
  h.reply

/-- RedisReplyPtr::operator* (src/RedisClient.h line 104): dereferences
the stored raw pointer; the embedding records the address about to be
dereferenced, `none` meaning a raw NULL dereference (undefined behavior
in the source, no guard is present). -/
def RedisReplyPtr.opStar (h : RedisReplyPtr) : Option Nat :=
  h.reply

/-- Error vocabulary for reply-handle access, from section 7 of the spec. -/
inductive AccessError
  | UseAfterRelease
deriving DecidableEq

/-- Modelled from the spec: the fail-fast reading of field access in
sections 4.1 and 7, in which dereferencing an empty Reply Handle raises a
UseAfterRelease precondition violation instead of proceeding to the raw
pointer.  This follows the spec words only and exists to be compared with
the source operators above, which follow the code. -/
def opArrowSpec (h : RedisReplyPtr) : Except AccessError Nat :=
  match h.reply with
  | none => Except.error AccessError.UseAfterRelease
  | some a => Except.ok a

/-
State-level semantics of a collection of live RedisReplyPtr handles.
Slot i of the state holds the raw pointer owned by handle i; distinct
slots model distinct C++ objects, so object identity (the `this == &other`
test in the source) is index equality.
-/

/-- ReplyState: the reply fields of the live handles, by position. -/
abbrev ReplyState := List (Option Nat)

/-- handleAt s i: the raw pointer owned by handle i, NULL when the index
is out of range. -/
def handleAt (s : ReplyState) (i : Nat) : Option Nat :=
  (s.get? i).join

/-- owned s: the reply addresses currently owned by some handle. -/
def owned (s : ReplyState) : List Nat :=
  s.filterMap id

/-- releaseAt s i: handle i runs release() (src/RedisClient.h lines
70-74): the raw pointer is handed out and slot i becomes empty. -/
def releaseAt (s : ReplyState) (i : Nat) : Option Nat × ReplyState :=
  (handleAt s i, s.set i none)

/-- ReplyOp: one caller-visible ownership-transfer operation on the
handles, mirroring the members of RedisReplyPtr.  `release i` is a bare
release() whose raw result goes to the caller; `transferCtor src` is the
transfer constructor (lines 77-79); `ctorFromRef src` is conversion to
RedisReplyRef (line 99) consumed by the converting constructor (lines
89-91); `assign dst src` is operator= from another handle (lines 80-86);
`assignViaRef dst src` is conversion to RedisReplyRef consumed by
operator= from RedisReplyRef (lines 92-98). -/
inductive ReplyOp
  | release (i : Nat)
  | transferCtor (src : Nat)
  | ctorFromRef (src : Nat)
  | assign (dst src : Nat)
  | assignViaRef (dst src : Nat)
deriving DecidableEq

/-- stepOp: small-step semantics of one ReplyOp, translated member by
member from src/RedisClient.h.  The result is the new state, the list of
addresses freed during the operation, and the list of addresses that
escaped the handle system as raw pointers (a bare release() hands its raw
result to the caller).  In the assignment cases the temporary
`RedisReplyPtr temp(release())` is destroyed at scope end, so the old
reply of the destination is freed by freeReplyObject. -/
def stepOp (s : ReplyState) : ReplyOp → ReplyState × List Nat × List Nat
  | ReplyOp.release i =>
      ((releaseAt s i).2, [], (releaseAt s i).1.toList)
  | ReplyOp.transferCtor src =>
      ((releaseAt s src).2 ++ [(releaseAt s src).1], [], [])
  | ReplyOp.ctorFromRef src =>
      ((releaseAt s src).2 ++ [(releaseAt s src).1], [], [])
  | ReplyOp.assign dst src =>
      if dst = src then (s, [], [])
      else
        (((releaseAt ((releaseAt s dst).2) src).2).set dst
            (releaseAt ((releaseAt s dst).2) src).1,
         freeReplyObject (releaseAt s dst).1, [])
  | ReplyOp.assignViaRef dst src =>
      if handleAt (releaseAt s src).2 dst = (releaseAt s src).1 then
        ((releaseAt s src).2, [], [])
      else
        (((releaseAt ((releaseAt s src).2) dst).2).set dst (releaseAt s src).1,
         freeReplyObject (releaseAt ((releaseAt s src).2) dst).1, [])

/-- opValid n op: the operation only touches handles that exist when n
handles are live. -/
def opValid (n : Nat) : ReplyOp → Bool
  | ReplyOp.release i => decide (i < n)
  | ReplyOp.transferCtor src => decide (src < n)
  | ReplyOp.ctorFromRef src => decide (src < n)
  | ReplyOp.assign dst src => decide (dst < n) && decide (src < n)
  | ReplyOp.assignViaRef dst src => decide (dst < n) && decide (src < n)

/-- opLen n op: number of live handles after the operation (the two
constructor forms create one new handle). -/
def opLen (n : Nat) : ReplyOp → Nat
  | ReplyOp.release _ => n
  | ReplyOp.transferCtor _ => n + 1
  | ReplyOp.ctorFromRef _ => n + 1
  | ReplyOp.assign _ _ => n
  | ReplyOp.assignViaRef _ _ => n

/-- opsValid n ops: every operation of the sequence touches only handles
alive at its point of the sequence. -/
def opsValid : Nat → List ReplyOp → Bool
  | _, [] => true
  | n, op :: rest => opValid n op && opsValid (opLen n op) rest

/-- runOps: run a sequence of operations, accumulating the freed and the
escaped addresses. -/
def runOps (s : ReplyState) : List ReplyOp → ReplyState × List Nat × List Nat
  | [] => (s, [], [])
  | op :: rest =>
      ((runOps (stepOp s op).1 rest).1,
       (stepOp s op).2.1 ++ (runOps (stepOp s op).1 rest).2.1,
       (stepOp s op).2.2 ++ (runOps (stepOp s op).1 rest).2.2)

/-- destroyAll s: every remaining handle is destroyed (src/RedisClient.h
lines 64-67); the concatenation of the destructor frees. -/
def destroyAll (s : ReplyState) : List Nat :=
  (s.map (fun r => RedisReplyPtr.destruct ⟨r⟩)).flatten

/-
Connection pool, guard and dispatcher.
-/

/-- Error vocabulary of the pool and dispatch path, from section 7 of the
spec; the source raises std::runtime_error at the corresponding places. -/
inductive RedisError
  | PoolExhausted
  | CommandFailed
  | PoolCreationFailed
deriving DecidableEq

/-- Modelled from the spec: REDIS_INSTANCE, the pool collaborator state
(hiredispool.h and hiredispool.c are not under src/).  Section 3 and
section 6: a pool instance holds the connections currently available for
checkout; `id` is the instance identity. -/
structure Pool where
  id : Nat
  available : List Nat
deriving DecidableEq

/-- Modelled from the spec: redis_get_socket, the pool collaborator
checkout of section 6.  When no connection is available it yields NULL
and no connection is considered checked out; otherwise it hands out one
available connection. -/
def redis_get_socket (p : Pool) : Option Nat × Pool :=
  match p.available with
  | [] => (none, p)
  | c :: rest => (some c, Pool.mk p.id rest)

/-- Modelled from the spec: redis_release_socket, the pool collaborator
check-in of section 6: the connection is returned to the pool. -/
def redis_release_socket (p : Pool) (sock : Nat) : Pool :=
  Pool.mk p.id (sock :: p.available)

/-- PooledSocket (src/RedisClient.h lines 25-50): RAII guard storing the
pool instance it came from and the checked-out socket. -/
structure PooledSocket where
  inst : Nat
  sock : Nat
deriving DecidableEq

/-- Constructor PooledSocket::PooledSocket (src/RedisClient.h lines
34-38): request a socket from the pool; when redis_get_socket yields NULL
the constructor throws (the spec PoolExhausted), the guard does not exist
and the destructor will never run for it. -/
def PooledSocket.acquire (p : Pool) : Except RedisError (PooledSocket × Pool) :=
  match redis_get_socket p with
  | (none, _) => Except.error RedisError.PoolExhausted
  | (some s, p1) => Except.ok (PooledSocket.mk p.id s, p1)

/-- Implicit conversion operator REDIS_SOCKET* (src/RedisClient.h lines
43-46): yields the stored socket. -/
def PooledSocket.toRedisSocket (g : PooledSocket) : Nat :=
  g.sock

/-- Destructor PooledSocket::~PooledSocket (src/RedisClient.h lines
40-42): check the stored socket back into the pool. -/
def PooledSocket.destruct (g : PooledSocket) (p : Pool) : Pool :=
  redis_release_socket p g.sock

/-- scopedCommand: the C++ scope of one command execution holding a
PooledSocket guard.  The guard is constructed on entry; whatever the body
produces — a value or a propagating error — the guard destructor runs at
scope exit (the C++ unwinding guarantee) and checks the socket back in.
When construction itself fails, no socket was checked out, no destructor
runs and the pool is untouched. -/
def scopedCommand {α : Type} (p : Pool) (body : Nat → Except RedisError α) :
    Except RedisError α × Pool :=
  match PooledSocket.acquire p with
  | Except.error e => (Except.error e, p)
  | Except.ok (g, p1) =>
      (body (PooledSocket.toRedisSocket g), PooledSocket.destruct g p1)

/-- RedisClient (src/RedisClient.h lines 110-151): owns the pool
instance for its whole lifetime. -/
structure RedisClient where
  inst : Nat
deriving DecidableEq

/-- Constructor RedisClient::RedisClient (src/RedisClient.h lines
118-121): redis_pool_create (pool collaborator, not under src/) reports
failure through a negative status; the constructor then throws (the spec
PoolCreationFailed) and no client handle exists.  The collaborator
outcome is passed in as the status and the created instance. -/
def RedisClient.construct (status : Int) (inst : Nat) :
    Except RedisError RedisClient :=
  if status < 0 then Except.error RedisError.PoolCreationFailed
  else Except.ok (RedisClient.mk inst)

/-- Modelled from the spec: RedisClient::redisCommand is declared at
src/RedisClient.h line 135 but its body is not under src/.  Spec section
4.3: acquire a guard, propagating PoolExhausted without sending when
checkout fails; send over the borrowed socket (`net` is the protocol
collaborator, `none` meaning network or protocol failure); map a null raw
reply to a CommandFailed condition rather than an empty Reply Handle;
otherwise wrap the raw reply in a Reply Handle and return it while the
guard checks the socket back in at scope exit. -/
def RedisClient.redisCommand (p : Pool) (net : Nat → Option Nat) :
    Except RedisError RedisReplyPtr × Pool :=
  scopedCommand p (fun sock =>
    match net sock with
    | none => Except.error RedisError.CommandFailed
    | some a => Except.ok (RedisReplyPtr.mk (some a)))

/-
Basic lemmas about the handle-state operations.
-/

lemma owned_cons (x : Option Nat) (t : ReplyState) :
    owned (x :: t) = x.toList ++ owned t := by
  cases x <;> simp [owned, Option.toList, List.filterMap_cons]

lemma owned_append (a b : ReplyState) : owned (a ++ b) = owned a ++ owned b :=
  List.filterMap_append ..

lemma handleAt_cons_zero (x : Option Nat) (t : ReplyState) :
    handleAt (x :: t) 0 = x := rfl

lemma handleAt_cons_succ (x : Option Nat) (t : ReplyState) (k : Nat) :
    handleAt (x :: t) (k + 1) = handleAt t k := rfl

lemma handleAt_lt_length {s : ReplyState} {i : Nat} {a : Nat}
    (h : handleAt s i = some a) : i < s.length := by
  induction s generalizing i with
  | nil => exact absurd h (by simp [handleAt])
  | cons x t ih =>
    cases i with
    | zero => simp
    | succ k => exact Nat.succ_lt_succ (ih h)

lemma handleAt_set_self (s : ReplyState) (i : Nat) (v : Option Nat)
    (h : i < s.length) : handleAt (s.set i v) i = v := by
  induction s generalizing i with
  | nil => exact absurd h (Nat.not_lt_zero i)
  | cons x t ih =>
    cases i with
    | zero => rfl
    | succ k => exact ih k (Nat.lt_of_succ_lt_succ h)

lemma handleAt_set_ne (s : ReplyState) (i j : Nat) (v : Option Nat)
    (h : i ≠ j) : handleAt (s.set i v) j = handleAt s j := by
  induction s generalizing i j with
  | nil => rfl
  | cons x t ih =>
    cases i with
    | zero =>
      cases j with
      | zero => exact absurd rfl h
      | succ m => rfl
    | succ k =>
      cases j with
      | zero => rfl
      | succ m => exact ih k m (fun hkm => h (by rw [hkm]))

lemma handleAt_append_left (s t : ReplyState) (i : Nat) (h : i < s.length) :
    handleAt (s ++ t) i = handleAt s i := by
  induction s generalizing i with
  | nil => exact absurd h (Nat.not_lt_zero i)
  | cons x r ih =>
    cases i with
    | zero => rfl
    | succ k => exact ih k (Nat.lt_of_succ_lt_succ h)

lemma set_eq_of_get? (s : ReplyState) (i : Nat) (v : Option Nat)
    (h : s.get? i = some v) : s.set i v = s := by
  induction s generalizing i with
  | nil => rfl
  | cons x t ih =>
    cases i with
    | zero =>
      injection h with h
      simp [List.set, h]
    | succ k =>
      simp only [List.set, List.cons.injEq, true_and]
      exact ih k h

lemma perm_mid (x y z : List Nat) : (x ++ (y ++ z)).Perm (y ++ (x ++ z)) := by
  rw [← List.append_assoc, ← List.append_assoc]
  exact List.perm_append_comm.append_right z

lemma owned_set_perm (s : ReplyState) (i : Nat) (v : Option Nat)
    (h : i < s.length) :
    ((handleAt s i).toList ++ owned (s.set i v)).Perm (v.toList ++ owned s) := by
  induction s generalizing i with
  | nil => exact absurd h (Nat.not_lt_zero i)
  | cons x t ih =>
    cases i with
    | zero =>
      simp only [handleAt_cons_zero, List.set]
      rw [owned_cons, owned_cons]
      exact perm_mid x.toList v.toList (owned t)
    | succ k =>
      have hk : k < t.length := Nat.lt_of_succ_lt_succ h
      simp only [handleAt_cons_succ, List.set]
      rw [owned_cons, owned_cons]
      exact (perm_mid _ _ _).trans
        (((ih k hk).append_left x.toList).trans (perm_mid _ _ _))

lemma nodup_handleAt_ne {s : ReplyState} {i j : Nat} {a : Nat}
    (hn : (owned s).Nodup) (hij : i ≠ j)
    (hi : handleAt s i = some a) (hj : handleAt s j = some a) : False := by
  have hil : i < s.length := handleAt_lt_length hi
  have h1 := owned_set_perm s i none hil
  rw [hi] at h1
  simp only [Option.toList, List.singleton_append, List.nil_append] at h1
  have hj1 : handleAt (s.set i none) j = some a := by
    rw [handleAt_set_ne s i j none hij]; exact hj
  have hjl : j < (s.set i none).length := handleAt_lt_length hj1
  have h2 := owned_set_perm (s.set i none) j none hjl
  rw [hj1] at h2
  simp only [Option.toList, List.singleton_append, List.nil_append] at h2
  have hperm : (owned s).Perm (a :: a :: owned ((s.set i none).set j none)) :=
    (h1.symm).trans (h2.symm.cons a)
  exact (List.nodup_cons.mp (hperm.nodup hn)).1 (List.mem_cons_self a _)

lemma freeReplyObject_toList (o : Option Nat) : freeReplyObject o = o.toList := by
  cases o <;> rfl

lemma destroyAll_eq_owned (s : ReplyState) : destroyAll s = owned s := by
  induction s with
  | nil => rfl
  | cons x t ih =>
    rw [owned_cons, ← ih]
    simp [destroyAll, RedisReplyPtr.destruct, freeReplyObject_toList]

lemma stepOp_length (s : ReplyState) (op : ReplyOp) :
    (stepOp s op).1.length = opLen s.length op := by
  cases op with
  | release i => simp [stepOp, releaseAt, opLen]
  | transferCtor src => simp [stepOp, releaseAt, opLen]
  | ctorFromRef src => simp [stepOp, releaseAt, opLen]
  | assign dst src =>
    by_cases h : dst = src <;> simp [stepOp, releaseAt, h, opLen]
  | assignViaRef dst src =>
    simp only [stepOp, opLen]
    split <;> simp [releaseAt]

lemma owned_singleton (x : Option Nat) : owned [x] = x.toList := by
  rw [owned_cons]
  simp [owned]

/-- stepOp_perm: one valid operation conserves replies.  The addresses
freed by the operation, the addresses escaping as raw pointers, and the
addresses still owned afterwards are together a permutation of the
addresses owned before, provided distinct handles own distinct replies. -/
lemma stepOp_perm (s : ReplyState) (op : ReplyOp)
    (hn : (owned s).Nodup) (hv : opValid s.length op = true) :
    ((stepOp s op).2.1 ++ ((stepOp s op).2.2 ++ owned (stepOp s op).1)).Perm
      (owned s) := by
  cases op with
  | release i =>
      have hi : i < s.length := of_decide_eq_true hv
      simpa [stepOp, releaseAt] using owned_set_perm s i none hi
  | transferCtor src =>
      have hs : src < s.length := of_decide_eq_true hv
      have h1 := owned_set_perm s src none hs
      simp only [stepOp, releaseAt, List.nil_append]
      rw [owned_append, owned_singleton]
      exact List.perm_append_comm.trans (by simpa using h1)
  | ctorFromRef src =>
      have hs : src < s.length := of_decide_eq_true hv
      have h1 := owned_set_perm s src none hs
      simp only [stepOp, releaseAt, List.nil_append]
      rw [owned_append, owned_singleton]
      exact List.perm_append_comm.trans (by simpa using h1)
  | assign dst src =>
      rcases Bool.and_eq_true_iff.mp hv with ⟨hd0, hs0⟩
      have hd : dst < s.length := of_decide_eq_true hd0
      have hs : src < s.length := of_decide_eq_true hs0
      by_cases hds : dst = src
      · simp only [stepOp, if_pos hds, List.nil_append]
        exact List.Perm.refl _
      · have hs1 : src < (s.set dst none).length := by
          rw [List.length_set]; exact hs
        have hd2 : dst < ((s.set dst none).set src none).length := by
          rw [List.length_set, List.length_set]; exact hd
        have hA := owned_set_perm s dst none hd
        have hB := owned_set_perm (s.set dst none) src none hs1
        have hC := owned_set_perm ((s.set dst none).set src none) dst
          (handleAt (s.set dst none) src) hd2
        have hnone : handleAt ((s.set dst none).set src none) dst = none := by
          rw [handleAt_set_ne _ src dst none (fun h => hds h.symm),
            handleAt_set_self s dst none hd]
        rw [hnone] at hC
        simp only [Option.toList, List.nil_append] at hA hB hC
        simp only [stepOp, if_neg hds, releaseAt, freeReplyObject_toList,
          List.nil_append]
        exact ((hC.append_left (handleAt s dst).toList).trans
          ((hB.append_left (handleAt s dst).toList).trans hA))
  | assignViaRef dst src =>
      rcases Bool.and_eq_true_iff.mp hv with ⟨hd0, hs0⟩
      have hd : dst < s.length := of_decide_eq_true hd0
      have hs : src < s.length := of_decide_eq_true hs0
      simp only [stepOp, releaseAt]
      split
      next hg =>
        have hr : handleAt s src = none := by
          by_cases hds : dst = src
          · subst hds
            rw [handleAt_set_self s dst none hd] at hg
            exact hg.symm
          · rw [handleAt_set_ne s src dst none (fun h => hds h.symm)] at hg
            cases hcase : handleAt s src with
            | none => rfl
            | some a =>
              rw [hcase] at hg
              exact (nodup_handleAt_ne hn hds hg hcase).elim
        have hA := owned_set_perm s src none hs
        rw [hr] at hA
        simp only [Option.toList, List.nil_append] at hA
        simpa using hA
      next hg =>
        have hd1 : dst < (s.set src none).length := by
          rw [List.length_set]; exact hd
        have hB := owned_set_perm (s.set src none) dst (handleAt s src) hd1
        have hA := owned_set_perm s src none hs
        simp only [Option.toList, List.nil_append] at hA
        simp only [freeReplyObject_toList, List.nil_append, List.set_set]
        exact hB.trans hA

/-- perm_of_coe: list permutation from multiset equality. -/
lemma perm_of_coe (l₁ l₂ : List Nat) (h : (l₁ : Multiset Nat) = l₂) :
    l₁.Perm l₂ :=
  Multiset.coe_eq_coe.mp h

lemma perm_reassoc (f1 f2 e1 e2 x : List Nat) :
    ((f1 ++ f2) ++ ((e1 ++ e2) ++ x)).Perm
      (f1 ++ (e1 ++ (f2 ++ (e2 ++ x)))) := by
  apply perm_of_coe
  simp only [← Multiset.coe_add]
  abel

/-- runOps_perm: a valid sequence of operations conserves replies: the
addresses freed during the run, the addresses escaping as raw pointers,
and the addresses still owned at the end are together a permutation of
the addresses owned initially. -/
lemma runOps_perm : ∀ (ops : List ReplyOp) (s : ReplyState),
    (owned s).Nodup → opsValid s.length ops = true →
    ((runOps s ops).2.1 ++
      ((runOps s ops).2.2 ++ owned (runOps s ops).1)).Perm (owned s)
  | [], s, _, _ => by simp [runOps]
  | op :: rest, s, hn, hv => by
      rcases Bool.and_eq_true_iff.mp hv with ⟨hv1, hv2⟩
      have h1 := stepOp_perm s op hn hv1
      have hn1 : (owned (stepOp s op).1).Nodup := by
        have hbig := (h1.symm).nodup hn
        exact hbig.sublist
          ((List.sublist_append_right (stepOp s op).2.2 _).trans
            (List.sublist_append_right (stepOp s op).2.1 _))
      have hv2a : opsValid (stepOp s op).1.length rest = true := by
        rw [stepOp_length]; exact hv2
      have h2 := runOps_perm rest (stepOp s op).1 hn1 hv2a
      simp only [runOps]
      exact (perm_reassoc _ _ _ _ _).trans
        (((h2.append_left _).append_left _).trans h1)

/-- scopedCommand_pool: with the LIFO pool model, the pool state after a
scoped command equals the pool state before it, on every path. -/
lemma scopedCommand_pool {α : Type} (p : Pool) (body : Nat → Except RedisError α) :
    (scopedCommand p body).2 = p := by
  cases p with
  | mk pid avail =>
    cases avail with
    | nil => rfl
    | cons c rest => rfl

/-- C2: for every pool state and every command body — whether the body
returns a value, returns early, or propagates an error — the PooledSocket
guard constructed by scopedCommand checks its connection back in at scope
exit, so the pool holds the same connections afterwards as before and its
size is unchanged; a failed command never leaves a connection permanently
checked out. -/
theorem C2_connection_returned_on_every_exit {α : Type}
    (p : Pool) (body : Nat → Except RedisError α) :
    ((scopedCommand p body).2).available.Perm p.available ∧
    ((scopedCommand p body).2).available.length = p.available.length := by
  rw [scopedCommand_pool]
  exact ⟨List.Perm.refl _, rfl⟩

/-- C4 (counterexample): on the concrete empty Reply Handle, operator->
and operator* of the source return the raw NULL pointer — the access
proceeds exactly as a raw null-pointer dereference — while the fail-fast
reading of the claim demands the UseAfterRelease precondition violation
(as the spec-modelled opArrowSpec produces).  The source operators have
no failure channel at all, so the claim that they fail fast is false. -/
theorem C4_empty_handle_access_counterexample :
    RedisReplyPtr.notNull ⟨none⟩ = false ∧
    RedisReplyPtr.opArrow ⟨none⟩ = none ∧
    RedisReplyPtr.opStar ⟨none⟩ = none ∧
    opArrowSpec ⟨none⟩ = Except.error AccessError.UseAfterRelease :=
  ⟨rfl, rfl, rfl, rfl⟩

/-- C4 (amended): calling a field or element access operator on an empty
Reply Handle returns, respectively dereferences, the raw NULL pointer
with no precondition check: the access proceeds as a raw null-pointer
dereference (undefined behavior in C++), and no fail-fast UseAfterRelease
check exists in the code. -/
theorem C4_empty_handle_access_amended (h : RedisReplyPtr)
    (he : h.notNull = false) :
    h.opArrow = none ∧ h.opStar = none ∧ h.get = none := by
  cases h with
  | mk r =>
    cases r with
    | none => exact ⟨rfl, rfl, rfl⟩
    | some a => exact absurd he (by simp [RedisReplyPtr.notNull])

/-- C4 witness: the amended theorem applied to the empty handle. -/
theorem C4_empty_handle_access_amended_witness :
    RedisReplyPtr.notNull ⟨none⟩ = false ∧
    (RedisReplyPtr.opArrow ⟨none⟩ = none ∧ RedisReplyPtr.opStar ⟨none⟩ = none ∧
      RedisReplyPtr.get ⟨none⟩ = none) :=
  ⟨rfl, C4_empty_handle_access_amended ⟨none⟩ rfl⟩

/-- C5: when the send/receive collaborator produces a null raw reply, the
dispatcher reports CommandFailed to the caller, and every reply handle the
dispatcher does return satisfies notNull — it never returns a silently
empty Reply Handle, so callers can tell a failed call from a nil reply. -/
theorem C5_null_reply_maps_to_command_failed (p : Pool)
    (net : Nat → Option Nat) (g : PooledSocket) (p1 : Pool)
    (hacq : PooledSocket.acquire p = Except.ok (g, p1)) :
    (net (PooledSocket.toRedisSocket g) = none →
      (RedisClient.redisCommand p net).1 =
        Except.error RedisError.CommandFailed) ∧
    (∀ h : RedisReplyPtr,
      (RedisClient.redisCommand p net).1 = Except.ok h → h.notNull = true) := by
  constructor
  · intro hnet
    simp [RedisClient.redisCommand, scopedCommand, hacq, hnet]
  · intro h hok
    simp only [RedisClient.redisCommand, scopedCommand, hacq] at hok
    cases hcase : net (PooledSocket.toRedisSocket g) with
    | none =>
        rw [hcase] at hok
        exact absurd hok (by simp)
    | some a =>
        rw [hcase] at hok
        injection hok with hok
        rw [← hok]
        rfl

/-- C5 witness: a pool with one connection and a network failure; the
dispatcher reports CommandFailed. -/
theorem C5_null_reply_maps_to_command_failed_witness :
    PooledSocket.acquire (Pool.mk 0 [7]) =
      Except.ok (PooledSocket.mk 0 7, Pool.mk 0 []) ∧
    (RedisClient.redisCommand (Pool.mk 0 [7]) (fun _ => none)).1 =
      Except.error RedisError.CommandFailed :=
  ⟨rfl, (C5_null_reply_maps_to_command_failed (Pool.mk 0 [7])
    (fun _ => none) (PooledSocket.mk 0 7) (Pool.mk 0 []) rfl).1 rfl⟩

/-- C6: when checkout yields no connection, the PooledSocket constructor
fails with PoolExhausted, the guard is never constructed, and no
connection is considered checked out: the whole scoped command returns
the PoolExhausted error with the pool untouched, and no check-in is ever
performed for the failed construction. -/
theorem C6_pool_exhausted_no_checkout {α : Type} (p : Pool)
    (body : Nat → Except RedisError α)
    (hempty : (redis_get_socket p).1 = none) :
    PooledSocket.acquire p = Except.error RedisError.PoolExhausted ∧
    scopedCommand p body = (Except.error RedisError.PoolExhausted, p) := by
  cases p with
  | mk pid avail =>
    cases avail with
    | nil => exact ⟨rfl, rfl⟩
    | cons c rest => exact absurd hempty (by simp [redis_get_socket])

/-- C6 witness: the empty pool. -/
theorem C6_pool_exhausted_no_checkout_witness :
    (redis_get_socket (Pool.mk 0 [])).1 = none ∧
    (PooledSocket.acquire (Pool.mk 0 []) =
        Except.error RedisError.PoolExhausted ∧
      scopedCommand (Pool.mk 0 []) (fun _ => Except.ok (0 : Nat)) =
        (Except.error RedisError.PoolExhausted, Pool.mk 0 [])) :=
  ⟨rfl, C6_pool_exhausted_no_checkout (Pool.mk 0 [])
    (fun _ => Except.ok (0 : Nat)) rfl⟩

/-- C9: when the pool collaborator reports creation failure (negative
status), the RedisClient constructor raises PoolCreationFailed and no
client handle exists at all — construction produces no RedisClient value
owning a pool instance. -/
theorem C9_pool_creation_failure_no_handle (status : Int) (inst : Nat)
    (hfail : status < 0) :
    RedisClient.construct status inst =
      Except.error RedisError.PoolCreationFailed ∧
    ∀ c : RedisClient, RedisClient.construct status inst ≠ Except.ok c := by
  constructor
  · simp [RedisClient.construct, hfail]
  · intro c hc
    simp [RedisClient.construct, hfail] at hc

/-- C9 witness: status -1. -/
theorem C9_pool_creation_failure_no_handle_witness :
    ((-1 : Int) < 0) ∧
    (RedisClient.construct (-1) 0 =
        Except.error RedisError.PoolCreationFailed ∧
      ∀ c : RedisClient, RedisClient.construct (-1) 0 ≠ Except.ok c) :=
  ⟨by decide, C9_pool_creation_failure_no_handle (-1) 0 (by decide)⟩

/-- C10: for every successfully constructed PooledSocket, the stored pool
instance is the instance checked out from and the stored socket is
exactly the connection the checkout yielded; the implicit conversion
yields that same socket, and destruction at scope exit checks that same
socket back into the pool state the checkout produced, whatever the body
did in between. -/
theorem C10_guard_frame {α : Type} (p : Pool) (g : PooledSocket) (p1 : Pool)
    (body : Nat → Except RedisError α)
    (hacq : PooledSocket.acquire p = Except.ok (g, p1)) :
    g.inst = p.id ∧
    redis_get_socket p = (some (PooledSocket.toRedisSocket g), p1) ∧
    (scopedCommand p body).2 = PooledSocket.destruct g p1 ∧
    ((scopedCommand p body).2).id = p.id := by
  cases p with
  | mk pid avail =>
    cases avail with
    | nil =>
        exact absurd hacq (by simp [PooledSocket.acquire, redis_get_socket])
    | cons c rest =>
        rw [show PooledSocket.acquire (Pool.mk pid (c :: rest)) =
          Except.ok (PooledSocket.mk pid c, Pool.mk pid rest) from rfl] at hacq
        injection hacq with hpair
        injection hpair with hg hp1
        subst hg
        subst hp1
        exact ⟨rfl, rfl, rfl, rfl⟩

/-- C10 witness: a one-connection pool. -/
theorem C10_guard_frame_witness :
    PooledSocket.acquire (Pool.mk 0 [5]) =
      Except.ok (PooledSocket.mk 0 5, Pool.mk 0 []) ∧
    ((PooledSocket.mk 0 5).inst = (Pool.mk 0 [5]).id ∧
      redis_get_socket (Pool.mk 0 [5]) =
        (some (PooledSocket.toRedisSocket (PooledSocket.mk 0 5)), Pool.mk 0 []) ∧
      (scopedCommand (Pool.mk 0 [5]) (fun _ => Except.ok (0 : Nat))).2 =
        PooledSocket.destruct (PooledSocket.mk 0 5) (Pool.mk 0 []) ∧
      ((scopedCommand (Pool.mk 0 [5]) (fun _ => Except.ok (0 : Nat))).2).id =
        (Pool.mk 0 [5]).id) :=
  ⟨rfl, C10_guard_frame (Pool.mk 0 [5]) (PooledSocket.mk 0 5) (Pool.mk 0 [])
    (fun _ => Except.ok (0 : Nat)) rfl⟩

lemma get?_eq_some_handleAt (s : ReplyState) (i : Nat) (h : i < s.length) :
    s.get? i = some (handleAt s i) := by
  cases hcase : s.get? i with
  | none => exact absurd (List.get?_eq_none.mp hcase) (Nat.not_le_of_lt h)
  | some x =>
      have hx : handleAt s i = x := by
        unfold handleAt
        rw [hcase]
        rfl
      rw [hx]

/-- C3: assigning handle j into a distinct handle i — through either
operator= overload, directly or via a RedisReplyRef temporary — frees the
reply i currently owns (exactly the freeReplyObject output on its old
pointer), transfers j's reply to i, and leaves j empty; assigning a
handle to itself, through either overload, is a no-op that changes no
state and frees nothing. -/
theorem C3_assignment_transfer_semantics (s : ReplyState) (i j : Nat)
    (hi : i < s.length) (hj : j < s.length) (hn : (owned s).Nodup) :
    (i ≠ j →
      handleAt (stepOp s (ReplyOp.assign i j)).1 i = handleAt s j ∧
      handleAt (stepOp s (ReplyOp.assign i j)).1 j = none ∧
      (stepOp s (ReplyOp.assign i j)).2.1 = freeReplyObject (handleAt s i) ∧
      handleAt (stepOp s (ReplyOp.assignViaRef i j)).1 i = handleAt s j ∧
      handleAt (stepOp s (ReplyOp.assignViaRef i j)).1 j = none ∧
      (stepOp s (ReplyOp.assignViaRef i j)).2.1 =
        freeReplyObject (handleAt s i)) ∧
    stepOp s (ReplyOp.assign i i) = (s, [], []) ∧
    stepOp s (ReplyOp.assignViaRef i i) = (s, [], []) := by
  refine ⟨?_, ?_, ?_⟩
  · intro hij
    have hj1 : j < (s.set i none).length := by rw [List.length_set]; exact hj
    have hi2 : i < ((s.set i none).set j none).length := by
      rw [List.length_set, List.length_set]; exact hi
    have hi3 : i < (s.set j none).length := by rw [List.length_set]; exact hi
    refine ⟨?_, ?_, ?_, ?_, ?_, ?_⟩
    · simp only [stepOp, if_neg hij, releaseAt]
      rw [handleAt_set_self _ i _ hi2]
      exact handleAt_set_ne s i j none hij
    · simp only [stepOp, if_neg hij, releaseAt]
      rw [handleAt_set_ne _ i j _ hij]
      exact handleAt_set_self (s.set i none) j none hj1
    · simp only [stepOp, if_neg hij, releaseAt]
    · simp only [stepOp, releaseAt]
      split
      next hg => exact hg
      next _hg =>
        rw [List.set_set]
        exact handleAt_set_self (s.set j none) i _ hi3
    · simp only [stepOp, releaseAt]
      split
      next _hg => exact handleAt_set_self s j none hj
      next _hg =>
        rw [List.set_set, handleAt_set_ne _ i j _ hij]
        exact handleAt_set_self s j none hj
    · simp only [stepOp, releaseAt]
      split
      next hg =>
        have hgi : handleAt s i = handleAt s j := by
          rw [← handleAt_set_ne s j i none (fun hh => hij hh.symm)]
          exact hg
        have hnone : handleAt s j = none := by
          cases hcase : handleAt s j with
          | none => rfl
          | some a =>
              exact (nodup_handleAt_ne hn hij (hgi.trans hcase) hcase).elim
        rw [hgi, hnone]
        rfl
      next _hg =>
        rw [handleAt_set_ne s j i none (fun hh => hij hh.symm)]
  · simp [stepOp]
  · simp only [stepOp, releaseAt]
    split
    next hg =>
      have hr : handleAt s i = none := by
        rw [handleAt_set_self s i none hi] at hg
        exact hg.symm
      have hset : s.set i none = s := by
        have hgs := get?_eq_some_handleAt s i hi
        rw [hr] at hgs
        exact set_eq_of_get? s i none hgs
      rw [hset]
    next _hg =>
      have h1 : handleAt (s.set i none) i = none := handleAt_set_self s i none hi
      rw [h1, List.set_set, List.set_set,
        set_eq_of_get? s i (handleAt s i) (get?_eq_some_handleAt s i hi)]
      rfl

/-- C3 witness: two handles owning replies 1 and 2; assigning handle 1
into handle 0 frees reply 1, moves reply 2 to handle 0 and empties
handle 1, through either overload. -/
theorem C3_assignment_transfer_semantics_witness :
    ((0 : Nat) < List.length ([some 1, some 2] : ReplyState) ∧
      (1 : Nat) < List.length ([some 1, some 2] : ReplyState) ∧
      (owned ([some 1, some 2] : ReplyState)).Nodup) ∧
    (handleAt (stepOp ([some 1, some 2] : ReplyState) (ReplyOp.assign 0 1)).1 0 =
        handleAt ([some 1, some 2] : ReplyState) 1 ∧
      handleAt (stepOp ([some 1, some 2] : ReplyState) (ReplyOp.assign 0 1)).1 1 =
        none ∧
      (stepOp ([some 1, some 2] : ReplyState) (ReplyOp.assign 0 1)).2.1 =
        freeReplyObject (handleAt ([some 1, some 2] : ReplyState) 0) ∧
      handleAt
          (stepOp ([some 1, some 2] : ReplyState) (ReplyOp.assignViaRef 0 1)).1 0 =
        handleAt ([some 1, some 2] : ReplyState) 1 ∧
      handleAt
          (stepOp ([some 1, some 2] : ReplyState) (ReplyOp.assignViaRef 0 1)).1 1 =
        none ∧
      (stepOp ([some 1, some 2] : ReplyState) (ReplyOp.assignViaRef 0 1)).2.1 =
        freeReplyObject (handleAt ([some 1, some 2] : ReplyState) 0)) :=
  ⟨⟨by decide, by decide, by decide⟩,
    (C3_assignment_transfer_semantics ([some 1, some 2] : ReplyState) 0 1
      (by decide) (by decide) (by decide)).1 (by decide)⟩

/-- C7: a handle out of which ownership was transferred is empty and its
destruction frees nothing: release() leaves the handle with notNull false
and a destructor output of nothing, and after any transfer operation the
source slot owns nothing. -/
theorem C7_transfer_out_leaves_empty (h : RedisReplyPtr) (s : ReplyState)
    (d i : Nat) (hi : i < s.length) (hd : d ≠ i) :
    (RedisReplyPtr.release h).2.notNull = false ∧
    (RedisReplyPtr.release h).2.destruct = [] ∧
    handleAt (stepOp s (ReplyOp.release i)).1 i = none ∧
    handleAt (stepOp s (ReplyOp.transferCtor i)).1 i = none ∧
    handleAt (stepOp s (ReplyOp.ctorFromRef i)).1 i = none ∧
    handleAt (stepOp s (ReplyOp.assign d i)).1 i = none ∧
    handleAt (stepOp s (ReplyOp.assignViaRef d i)).1 i = none := by
  have hi1 : i < (s.set i none).length := by rw [List.length_set]; exact hi
  have hi2 : i < (s.set d none).length := by rw [List.length_set]; exact hi
  refine ⟨rfl, rfl, ?_, ?_, ?_, ?_, ?_⟩
  · simp only [stepOp, releaseAt]
    exact handleAt_set_self s i none hi
  · simp only [stepOp, releaseAt]
    rw [handleAt_append_left _ _ i hi1]
    exact handleAt_set_self s i none hi
  · simp only [stepOp, releaseAt]
    rw [handleAt_append_left _ _ i hi1]
    exact handleAt_set_self s i none hi
  · simp only [stepOp, if_neg hd, releaseAt]
    rw [handleAt_set_ne _ d i _ hd]
    exact handleAt_set_self (s.set d none) i none hi2
  · simp only [stepOp, releaseAt]
    split
    next _hg => exact handleAt_set_self s i none hi
    next _hg =>
      rw [List.set_set, handleAt_set_ne _ d i _ hd]
      exact handleAt_set_self s i none hi

/-- C1 (counterexample): the claim quantifies over sequences that include
bare release() and asserts the underlying reply is freed exactly once.
On the concrete input of one handle owning reply 1 and the single
operation release 0 — a valid sequence of distinct owners — the run frees
nothing and the final destruction of every handle frees nothing, because
release() moved the raw pointer out of the handle system; reply 1 is
freed zero times, so the frees are not a permutation of the initially
owned replies and the claim as stated is false. -/
theorem C1_reply_freed_exactly_once_counterexample :
    (owned ([some 1] : ReplyState)).Nodup ∧
    opsValid (List.length ([some 1] : ReplyState)) [ReplyOp.release 0] = true ∧
    ¬ (((runOps ([some 1] : ReplyState) [ReplyOp.release 0]).2.1 ++
        destroyAll (runOps ([some 1] : ReplyState) [ReplyOp.release 0]).1).Perm
        (owned ([some 1] : ReplyState))) := by
  decide

/-- C1 (amended): for every sequence of valid ownership-transfer
operations on Reply Handles that initially own pairwise-distinct replies,
followed by destruction of every handle, the replies freed during the
run together with the replies freed by the final destructors, plus the
raw pointers that escaped the handle system through a bare release(), are
exactly the initially owned replies, each exactly once; in particular no
finalizer runs twice on the same reply, every free is performed by the
handle owning the reply at that point, and a reply that never escapes is
freed exactly once. -/
theorem C1_reply_freed_exactly_once_amended (s : ReplyState)
    (ops : List ReplyOp) (hn : (owned s).Nodup)
    (hv : opsValid s.length ops = true) :
    (((runOps s ops).2.1 ++ destroyAll (runOps s ops).1) ++
        (runOps s ops).2.2).Perm (owned s) ∧
    ((runOps s ops).2.1 ++ destroyAll (runOps s ops).1).Nodup := by
  have h := runOps_perm ops s hn hv
  rw [destroyAll_eq_owned]
  constructor
  · refine List.Perm.trans ?_ h
    apply perm_of_coe
    simp only [← Multiset.coe_add]
    abel
  · have hbig := (h.symm).nodup hn
    refine hbig.sublist ?_
    exact (List.sublist_append_right _ _).append_left _

/-- C1 witness: two handles owning replies 1 and 2; a transfer
construction from handle 0 followed by an assignment of handle 2 into
handle 1 frees reply 2 during the run, and the final destruction frees
reply 1: every reply exactly once and no double free. -/
theorem C1_reply_freed_exactly_once_amended_witness :
    ((owned ([some 1, some 2] : ReplyState)).Nodup ∧
      opsValid (List.length ([some 1, some 2] : ReplyState))
        [ReplyOp.transferCtor 0, ReplyOp.assign 1 2] = true) ∧
    ((((runOps ([some 1, some 2] : ReplyState)
          [ReplyOp.transferCtor 0, ReplyOp.assign 1 2]).2.1 ++
        destroyAll (runOps ([some 1, some 2] : ReplyState)
          [ReplyOp.transferCtor 0, ReplyOp.assign 1 2]).1) ++
        (runOps ([some 1, some 2] : ReplyState)
          [ReplyOp.transferCtor 0, ReplyOp.assign 1 2]).2.2).Perm
        (owned ([some 1, some 2] : ReplyState)) ∧
      ((runOps ([some 1, some 2] : ReplyState)
          [ReplyOp.transferCtor 0, ReplyOp.assign 1 2]).2.1 ++
        destroyAll (runOps ([some 1, some 2] : ReplyState)
          [ReplyOp.transferCtor 0, ReplyOp.assign 1 2]).1).Nodup) :=
  ⟨⟨by decide, by decide⟩,
    C1_reply_freed_exactly_once_amended ([some 1, some 2] : ReplyState)
      [ReplyOp.transferCtor 0, ReplyOp.assign 1 2] (by decide) (by decide)⟩

/-- C7 witness: a fresh handle owning reply 3, and a two-handle state
owning replies 1 and 2: after each transfer form out of handle 1, that
handle is empty and destroys nothing. -/
theorem C7_transfer_out_leaves_empty_witness :
    ((1 : Nat) < List.length ([some 1, some 2] : ReplyState) ∧
      (0 : Nat) ≠ (1 : Nat)) ∧
    ((RedisReplyPtr.release ⟨some 3⟩).2.notNull = false ∧
      (RedisReplyPtr.release ⟨some 3⟩).2.destruct = [] ∧
      handleAt (stepOp ([some 1, some 2] : ReplyState)
        (ReplyOp.release 1)).1 1 = none ∧
      handleAt (stepOp ([some 1, some 2] : ReplyState)
        (ReplyOp.transferCtor 1)).1 1 = none ∧
      handleAt (stepOp ([some 1, some 2] : ReplyState)
        (ReplyOp.ctorFromRef 1)).1 1 = none ∧
      handleAt (stepOp ([some 1, some 2] : ReplyState)
        (ReplyOp.assign 0 1)).1 1 = none ∧
      handleAt (stepOp ([some 1, some 2] : ReplyState)
        (ReplyOp.assignViaRef 0 1)).1 1 = none) :=
  ⟨⟨by decide, by decide⟩,
    C7_transfer_out_leaves_empty ⟨some 3⟩ ([some 1, some 2] : ReplyState) 0 1
      (by decide) (by decide)⟩
